import Mathlib

/-!
Shallow embedding of `src/ralph/scan/plugins/ssh_xen.py`, a XenServer
discovery plugin, together with proofs about its parsing, correlation and
orchestration logic.

Python text is modelled as a list of characters (`Str`); Python's
arbitrary-precision integers as `Int`; a value that may be `None` as an
`Option`.  Remote I/O is modelled by an environment record holding the text
each remote command would produce, and every model function that performs
I/O additionally returns an explicit event trace.  A Python code path that
raises an exception the plugin does not catch is modelled by `Option`
(`none` = crash) or by an explicit error value.
-/

/-- Python text, modelled as a list of characters. -/
abbrev Str : Type := List Char

/-- The characters stripped by Python's `str.strip()`. -/
def isPySpace (c : Char) : Bool :=
  c == ' ' || c == '\t' || c == '\n' || c == '\r' || c == '\x0b' || c == '\x0c'

/-- Python `str.strip()`. -/
def trimL (s : Str) : Str :=
  ((s.dropWhile isPySpace).reverse.dropWhile isPySpace).reverse

/-- Python `s.split(sep)` for a single-character separator. -/
def splitChar (sep : Char) : Str → List Str
  | [] => [[]]
  | c :: cs =>
    match splitChar sep cs with
    | [] => [[]]
    | r :: rs => if c == sep then [] :: r :: rs else (c :: r) :: rs

/-- Python `s.split(sep, 1)` at a single-character separator; `none` models
the one-element result, on which taking index `[1]` (or unpacking into two
names) raises. -/
def splitOnce (sep : Char) : Str → Option (Str × Str)
  | [] => none
  | c :: cs =>
    if c == sep then some ([], cs)
    else (splitOnce sep cs).map (fun p => (c :: p.1, p.2))

def splitSeqAux (sep : Str) : Nat → Str → List Str
  | _, [] => [[]]
  | 0, s => [s]
  | f + 1, c :: cs =>
    if sep.isPrefixOf (c :: cs) then
      [] :: splitSeqAux sep f (cs.drop (sep.length - 1))
    else
      match splitSeqAux sep f cs with
      | [] => [[]]
      | r :: rs => (c :: r) :: rs

/-- Python `s.split(sep)` for a multi-character separator (leftmost,
non-overlapping). -/
def splitSeq (sep : Str) (s : Str) : List Str := splitSeqAux sep s.length s

def replaceAux (pat rep : Str) : Nat → Str → Str
  | _, [] => []
  | 0, s => s
  | f + 1, c :: cs =>
    if pat.isPrefixOf (c :: cs) then
      rep ++ replaceAux pat rep f (cs.drop (pat.length - 1))
    else
      c :: replaceAux pat rep f cs

/-- Python `s.replace(pat, rep)` (leftmost, non-overlapping). -/
def replaceL (pat rep s : Str) : Str := replaceAux pat rep s.length s

/-- Python `needle in hay` (substring containment). -/
def containsSub (needle : Str) : Str → Bool
  | [] => needle.isEmpty
  | c :: cs => needle.isPrefixOf (c :: cs) || containsSub needle cs

/-- Python `str.lower()` (over the ASCII range used here). -/
def lowerStr (s : Str) : Str := s.map Char.toLower

def digitsVal (s : Str) : Nat := s.foldl (fun n c => n * 10 + (c.toNat - 48)) 0

def allDigits (s : Str) : Bool := !s.isEmpty && s.all Char.isDigit

/-- Python `int(s)` on a string: surrounding whitespace is stripped, one
optional sign is allowed, and the rest must be decimal digits; any other
shape raises `ValueError`, modelled by `none`. -/
def pyInt (s : Str) : Option Int :=
  match trimL s with
  | '-' :: rest => if allDigits rest then some (-(digitsVal rest : Int)) else none
  | '+' :: rest => if allDigits rest then some ((digitsVal rest : Int)) else none
  | t => if allDigits t then some ((digitsVal t : Int)) else none

/-- Last-binding-wins association lookup: the behaviour of a Python `dict`
built by repeated assignment and read with `dict.get`. -/
def dlookup {κ β : Type} [DecidableEq κ] : List (κ × β) → κ → Option β
  | [], _ => none
  | (k', v) :: rest, k =>
    match dlookup rest k with
    | some r => some r
    | none => if k' = k then some v else none

/-! ### Text constants of the plugin -/

def sRO : Str := "( RO)".data
def sRW : Str := "( RW)".data
def sMRO : Str := "(MRO)".data
def kUuid : Str := "uuid".data
def kAddress : Str := "address".data
def kNameLabel : Str := "name-label".data
def kPowerState : Str := "power-state".data
def kVcpus : Str := "VCPUs-number".data
def kMemActual : Str := "memory-actual".data
def sRunning : Str := "running".data
def sTransfer : Str := "Transfer VM for".data
def sControl : Str := "Control domain on host:".data
def sVmNameLabel : Str := "vm-name-label".data
def sMAC : Str := "MAC".data
def kVmNameLabelSp : Str := "vm-name-label ".data
def kSrUuidSp : Str := "sr-uuid ".data
def kTypeSp : Str := "type ".data
def kDeviceSp : Str := "device ".data
def kUuidSp : Str := "uuid ".data
def kVirtSizeSp : Str := "virtual-size ".data
def sDisk : Str := "Disk".data
def sVHD : Str := "VHD-".data
def sNoneTxt : Str := "None".data
def sXen : Str := "xen".data
def sNxos : Str := "nx-os".data
def sTwoNewlines : Str := "\n\n".data
def sErrorSt : Str := "error".data
def sSuccessSt : Str := "success".data
def sUnknownSt : Str := "unknown".data
def sPortClosed : Str := "Port 22 closed on a XEN server.".data
def sHostUuidErr : Str := "Could not find this host UUID.".data
def sNotConfigured : Str :=
  "Not configured. Set XEN_USER and XEN_PASSWORD in your configuration file.".data
def sNexusMsg : Str := "Incompatible Nexus found.".data
def sXenNotFound : Str := "XEN not found.".data
def sModelName : Str := "XEN Virtual Server".data
def sXenVirtual : Str := "XEN Virtual".data
def sXenVirtualCpu : Str := "XEN Virtual CPU".data
def sXenVirtualDisk : Str := "XEN Virtual Disk".data
def sCpuSp : Str := "CPU ".data
def sVirtual : Str := "Virtual".data
def sUnknownTy : Str := "unknown".data

/-! ### Line sanitising -/

/-- `_sanitize_line`: strip the line, then delete the decorative role tags
`( RO)`, `( RW)`, `(MRO)` (in that order). -/
def sanitizeLine (l : Str) : Str :=
  replaceL sMRO [] (replaceL sRW [] (replaceL sRO [] (trimL l)))

/-- The per-line cleanup in `_get_running_vms`: delete the role tags first,
then strip. -/
def stripDecor (l : Str) : Str :=
  trimL (replaceL sMRO [] (replaceL sRW [] (replaceL sRO [] l)))

/-- Modelled from the spec: `parse.pairs` (from `ralph.util.parse`, which is
not under `src/`) turns the `key: value` lines of one output block into a
key→value mapping; lines without the separator are ignored, both sides are
stripped, and a later occurrence of a key overrides an earlier one. -/
def pairsOf (lines : List Str) : List (Str × Str) :=
  lines.filterMap (fun l => (splitOnce ':' l).map (fun p => (trimL p.1, trimL p.2)))

/-- `int(int(s) / 1024 / 1024)` as the pipeline records it, idealized as
exact truncation of `v / 2^20`.  Under `from __future__ import division`
the source true-divides through binary64 floats, whose rounding differs
from the exact quotient once `v` has more than 53 significant bits (e.g.
`2^60 - 1` yields `2^40`, not `2^40 - 1`), so this model is exact where the
program is not; `pyFloatMiB` below models the float path itself, and the
two definitions agree on every value below `2^53`. -/
def bytesToMiB (v : Int) : Int := v.tdiv (1024 * 1024)

/-- Bit length of a natural number.  The fuel argument only bounds the
recursion depth (one step per bit, stopping at 0), so fuel `n` always
suffices. -/
def bitlenAux : Nat → Nat → Nat
  | 0, _ => 0
  | f + 1, n => if n = 0 then 0 else bitlenAux f (n / 2) + 1

def bitlen (n : Nat) : Nat := bitlenAux n n

/-- Round a natural number to 53 significant bits, ties to even: the
mantissa rounding of IEEE-754 binary64 arithmetic.  Values below `2^53`
are exact; otherwise the `bitlen n - 53` low bits are dropped, rounding up
on a remainder above half an ulp, or at exactly half when the kept part is
odd. -/
def round53 (n : Nat) : Nat :=
  if n < 2 ^ 53 then n
  else if n % 2 ^ (bitlen n - 53) > 2 ^ (bitlen n - 54) ∨
      (n % 2 ^ (bitlen n - 53) = 2 ^ (bitlen n - 54) ∧ n / 2 ^ (bitlen n - 53) % 2 = 1) then
    (n / 2 ^ (bitlen n - 53) + 1) * 2 ^ (bitlen n - 53)
  else
    n / 2 ^ (bitlen n - 53) * 2 ^ (bitlen n - 53)

/-- The float semantics of `int(int(s) / 1024 / 1024)` made explicit.
CPython's `int / int` true division returns the correctly rounded binary64
value of the exact quotient; dividing by `1024 = 2^10` twice therefore
performs one 53-bit round-half-even rounding of the integer's magnitude
(a power-of-two divisor only shifts the exponent, and the second division
is exact), and `int(...)` then truncates toward zero, so the result is the
rounded magnitude shifted by `2^20`, with the sign restored.  `none`
models the `OverflowError` CPython raises when the first quotient exceeds
the largest finite double (rounded magnitude at least `2^1034`). -/
def pyFloatMiB (v : Int) : Option Int :=
  if 2 ^ 1034 ≤ round53 v.natAbs then none
  else if v < 0 then some (-(Int.ofNat (round53 v.natAbs / 2 ^ 20)))
  else some (Int.ofNat (round53 v.natAbs / 2 ^ 20))

/-! ### `_get_current_host_uuid` -/

/-- The `(param_name, param_value)` pair the host-list loop extracts from a
line: sanitize, split on every `:`, take the first two parts stripped;
`none` models the `IndexError` → `continue` path for lines without `:`. -/
def lineKV (l : Str) : Option (Str × Str) :=
  match splitChar ':' (sanitizeLine l) with
  | p0 :: p1 :: _ => some (trimL p0, trimL p1)
  | _ => none

/-- Does this host-list line match the queried address? -/
def matchesAddr (ip l : Str) : Bool :=
  match lineKV l with
  | some (n, v) => n == kAddress && v == ip
  | none => false

/-- Does this host-list line carry a `uuid` parameter? -/
def isUuidLine (l : Str) : Bool :=
  match lineKV l with
  | some (n, _) => n == kUuid
  | none => false

def hostUuidGo (ip : Str) (uuid : Str) : List Str → Option Str
  | [] => none
  | l :: ls =>
    match lineKV l with
    | none => hostUuidGo ip uuid ls
    | some (n, v) =>
      if n == kUuid then hostUuidGo ip v ls
      else if n == kAddress && v == ip then some uuid
      else hostUuidGo ip uuid ls

/-- `_get_current_host_uuid`: walk the host-list lines tracking the most
recently seen uuid; on the first line whose `address` value equals the
queried address return that uuid; `none` if no line matches. -/
def getCurrentHostUuid (lines : List Str) (ip : Str) : Option Str :=
  hostUuidGo ip [] lines

/-! ### `_get_running_vms` -/

structure VmT where
  label : Str
  uuid : Str
  cores : Int
  memory : Int
deriving DecidableEq

/-- The helper-VM test of `_get_running_vms`. -/
def startsHelper (label : Str) : Bool :=
  sTransfer.isPrefixOf label || sControl.isPrefixOf label

/-- The key→value mapping parsed from one VM-list block. -/
def blockInfo (b : Str) : List (Str × Str) :=
  pairsOf ((splitChar '\n' b).map stripDecor)

/-- Processing of one VM-list block: `some none` = block skipped (empty,
helper VM, or not running); `none` = the block makes the whole call raise
(missing key or unparsable integer); `some (some t)` = tuple added. -/
def vmOfBlock (b : Str) : Option (Option VmT) :=
  let info := blockInfo b
  if info = [] then some none
  else
    match dlookup info kNameLabel with
    | none => none
    | some label =>
      if startsHelper label then some none
      else
        match dlookup info kPowerState with
        | none => none
        | some power =>
          if power = sRunning then
            match dlookup info kVcpus, dlookup info kMemActual, dlookup info kUuid with
            | some cs, some ms, some u =>
              match pyInt cs, pyInt ms with
              | some cores, some mem => some (some ⟨label, u, cores, bytesToMiB mem⟩)
              | _, _ => none
            | _, _, _ => none
          else some none

def runVmsAux : List Str → Option (List VmT)
  | [] => some []
  | b :: bs =>
    match vmOfBlock b with
    | none => none
    | some none => runVmsAux bs
    | some (some t) =>
      match runVmsAux bs with
      | none => none
      | some ts => some (t :: ts)

/-- `_get_running_vms`: split the command output on blank lines and collect
the tuples of the surviving blocks (the Python code accumulates them in a
`set`; membership is what matters and is preserved by the list model). -/
def getRunningVms (data : Str) : Option (List VmT) :=
  runVmsAux (splitSeq sTwoNewlines data)

/-! ### `_get_macs` -/

/-- `macs[label].add(mac)` on a `defaultdict(set)`, modelled on an
association list whose value lists carry no duplicates. -/
def addToSetMap (m : List (Str × List Str)) (k v : Str) : List (Str × List Str) :=
  match m with
  | [] => [(k, [v])]
  | (k', vs) :: rest =>
    if k' = k then (k', if v ∈ vs then vs else vs ++ [v]) :: rest
    else (k', vs) :: addToSetMap rest k v

def macsGo (label : Str) (acc : List (Str × List Str)) : List Str → Option (List (Str × List Str))
  | [] => some acc
  | l0 :: ls =>
    let l := sanitizeLine l0
    if l.isEmpty then macsGo label acc ls
    else
      match (if sVmNameLabel.isPrefixOf l then
               match splitOnce ':' l with
               | none => none
               | some p => some (trimL p.2)
             else some label) with
      | none => none
      | some label' =>
        if sTransfer.isPrefixOf label' then macsGo label' acc ls
        else if sMAC.isPrefixOf l then
          match splitOnce ':' l with
          | none => none
          | some p => macsGo label' (addToSetMap acc label' (trimL p.2)) ls
        else macsGo label' acc ls

/-- `_get_macs`: fold over the sanitized VIF-list lines carrying the current
label forward; `none` models the `IndexError` raised when a label or MAC
line has no `:`. -/
def getMacs (lines : List Str) : Option (List (Str × List Str)) :=
  macsGo [] [] lines

/-! ### `_get_disks` -/

structure DiskRec where
  diskUuid : Option Str
  srUuid : Option Str
  sizeMiB : Int
  device : Option Str
deriving DecidableEq

/-- `disks[vm].append(d)` on a `defaultdict(list)` (the key is the running
`vm` context, which may still be `None`). -/
def addDisk (m : List (Option Str × List DiskRec)) (k : Option Str) (d : DiskRec) :
    List (Option Str × List DiskRec) :=
  match m with
  | [] => [(k, [d])]
  | (k', ds) :: rest =>
    if k' = k then (k', ds ++ [d]) :: rest
    else (k', ds) :: addDisk rest k d

def disksGo (vm srU ty dev du : Option Str) (acc : List (Option Str × List DiskRec)) :
    List Str → Option (List (Option Str × List DiskRec))
  | [] => some acc
  | l :: ls =>
    if (trimL l).isEmpty then disksGo vm srU ty dev du acc ls
    else
      match splitOnce ':' l with
      | none => none
      | some p =>
        let key := trimL p.1
        let value := trimL p.2
        if kVmNameLabelSp.isPrefixOf key then disksGo (some value) srU ty dev du acc ls
        else if kSrUuidSp.isPrefixOf key then disksGo vm (some value) ty dev du acc ls
        else if kTypeSp.isPrefixOf key then disksGo vm srU (some value) dev du acc ls
        else if kDeviceSp.isPrefixOf key then disksGo vm srU ty (some value) du acc ls
        else if kUuidSp.isPrefixOf key then disksGo vm srU ty dev (some value) acc ls
        else if kVirtSizeSp.isPrefixOf key then
          if ty = some sDisk then
            match pyInt value with
            | none => none
            | some v => disksGo vm srU ty dev du (addDisk acc vm ⟨du, srU, bytesToMiB v, dev⟩) ls
          else disksGo vm srU ty dev du acc ls
        else disksGo vm srU ty dev du acc ls

/-- `_get_disks`: single pass over the flat `vm-disk-list` output carrying
the most recent vm / sr-uuid / type / device / uuid values forward; a
non-blank line without `:` or an unparsable `virtual-size` raises (`none`). -/
def getDisks (lines : List Str) : Option (List (Option Str × List DiskRec)) :=
  disksGo none none none none none [] lines

/-! ### Assembly (`_ssh_xen`, lines 178-232) -/

structure ProcEntry where
  family : Str
  name : Str
  label : Str
  modelName : Str
  cores : Int
  index : Nat
deriving DecidableEq

structure MemEntry where
  family : Str
  sizeMiB : Int
  label : Str
deriving DecidableEq

structure ShareEntry where
  serial : Str
  isVirtual : Bool
  sizeMnt : Int
  volume : Option Str
deriving DecidableEq

structure StorageEntry where
  sizeMiB : Int
  label : Option Str
  family : Str
deriving DecidableEq

/-- One sub-device record; the Python dict holds the `disks` /
`disk_shares` keys only once a first element is appended, modelled here by
lists that are empty exactly when the key would be absent. -/
structure VmDevice where
  modelName : Str
  macAddresses : List Str
  serialNumber : Str
  hostname : Str
  processors : List ProcEntry
  memory : List MemEntry
  diskShares : List ShareEntry
  disks : List StorageEntry
deriving DecidableEq

structure DeviceInfo where
  subdevices : List VmDevice
  devType : Str
  systemIpAddresses : List Str
deriving DecidableEq

/-- `'VHD-%s' % sr_uuid`; Python formats a `None` context as the text
`None`. -/
def vhdKey (srU : Option Str) : Str :=
  sVHD ++ (match srU with | some s => s | none => sNoneTxt)

/-- The share lookup of the classification loop: `shares.get('VHD-<sr>',
(None, None))` followed by the `if wwn:` truthiness test. -/
def isShareDisk (shares : List (Str × (Str × Int))) (d : DiskRec) : Bool :=
  match dlookup shares (vhdKey d.srUuid) with
  | some (w, _) => !w.isEmpty
  | none => false

def mkShareEntry (shares : List (Str × (Str × Int))) (d : DiskRec) : ShareEntry :=
  match dlookup shares (vhdKey d.srUuid) with
  | some (w, ms) => ⟨w, true, ms, d.device⟩
  | none => ⟨[], true, 0, d.device⟩

def mkStorageEntry (d : DiskRec) : StorageEntry :=
  ⟨d.sizeMiB, d.device, sXenVirtualDisk⟩

/-- The per-VM disk loop of `_ssh_xen` (lines 209-230): each disk is routed
to `disk_shares` when the shares lookup yields a truthy WWN, and to `disks`
otherwise. -/
def classifyVmDisks (shares : List (Str × (Str × Int))) :
    List DiskRec → List ShareEntry × List StorageEntry
  | [] => ([], [])
  | d :: rest =>
    let r := classifyVmDisks shares rest
    match dlookup shares (vhdKey d.srUuid) with
    | some (w, ms) =>
      if w.isEmpty then (r.1, mkStorageEntry d :: r.2)
      else (⟨w, true, ms, d.device⟩ :: r.1, r.2)
    | none => (r.1, mkStorageEntry d :: r.2)

/-- One iteration of the `for vm_name, vm_uuid, vm_cores, vm_memory in vms`
loop of `_ssh_xen`. -/
def buildVmDevice (shares : List (Str × (Str × Int))) (macs : List (Str × List Str))
    (disks : List (Option Str × List DiskRec)) (t : VmT) : VmDevice :=
  let vmDisks := (dlookup disks (some t.label)).getD []
  let cls := classifyVmDisks shares vmDisks
  { modelName := sModelName
    macAddresses := (dlookup macs t.label).getD []
    serialNumber := t.uuid
    hostname := t.label
    processors := (List.range t.cores.toNat).map
      (fun i => ⟨sXenVirtual, sXenVirtualCpu, sCpuSp ++ Nat.toDigits 10 i, sXenVirtual, 1, i⟩)
    memory := [⟨sVirtual, t.memory, sXenVirtual⟩]
    diskShares := cls.1
    disks := cls.2 }

/-- The `device_info` structure assembled by `_ssh_xen`; `DeviceType.unknown.raw`
lives outside `src/` and is modelled, per the spec, as the `unknown` type
marker. -/
def assembleDevice (shares : List (Str × (Str × Int))) (ip : Str) (vms : List VmT)
    (macs : List (Str × List Str)) (disks : List (Option Str × List DiskRec)) : DeviceInfo :=
  ⟨vms.map (buildVmDevice shares macs disks), sUnknownTy, [ip]⟩

/-! ### Orchestration (`_connect_ssh`, `_ssh_xen`, `scan_address`) -/

/-- The exceptions that can leave `_ssh_xen`: a `ConnectionError`, a domain
`Error`, or an uncaught Python exception from a parsing contract violation
(`KeyError` / `ValueError` / `IndexError`), which `scan_address` does not
catch. -/
inductive Exc where
  | connError (msg : Str)
  | domainError (msg : Str)
  | pyError
deriving DecidableEq

/-- Observable I/O events of one scan. -/
inductive Ev where
  | checkPort
  | connect
  | cmdHostList
  | cmdVmList
  | cmdVifList
  | cmdDiskList
  | sharesLookup
  | closeSession
deriving DecidableEq

/-- The remote world: what the reachability probe answers, what each remote
command prints, and what the external `get_disk_shares` collaborator
returns (a mapping from storage-repository label to (WWN, mount size)). -/
structure XenEnv where
  tcpOpen : Bool
  hostLines : List Str
  vmData : Str
  vifLines : List Str
  diskLines : List Str
  shares : List (Str × (Str × Int))

/-- The `try` body of `_ssh_xen` (lines 169-175), with its event trace. -/
def pipeSteps (env : XenEnv) (ip : Str) :
    Except Exc (List VmT × List (Str × List Str) × List (Option Str × List DiskRec)) × List Ev :=
  match getCurrentHostUuid env.hostLines ip with
  | none => (.error (.domainError sHostUuidErr), [.cmdHostList])
  | some u =>
    if u.isEmpty then (.error (.domainError sHostUuidErr), [.cmdHostList])
    else
      match getRunningVms env.vmData with
      | none => (.error .pyError, [.cmdHostList, .cmdVmList])
      | some vms =>
        match getMacs env.vifLines with
        | none => (.error .pyError, [.cmdHostList, .cmdVmList, .cmdVifList])
        | some macs =>
          match getDisks env.diskLines with
          | none => (.error .pyError, [.cmdHostList, .cmdVmList, .cmdVifList, .cmdDiskList])
          | some disks =>
            (.ok (vms, macs, disks),
             [.cmdHostList, .cmdVmList, .cmdVifList, .cmdDiskList, .sharesLookup])

/-- `_ssh_xen`: probe port 22 (`_connect_ssh` raises `ConnectionError`
before any session is opened when it is closed), open the session, run the
pipeline, and close the session in a `finally` block on every path; on
success assemble the device info. -/
def sshXenRun (env : XenEnv) (ip : Str) : Except Exc DeviceInfo × List Ev :=
  if env.tcpOpen then
    match pipeSteps env ip with
    | (.error e, evs) => (.error e, .checkPort :: .connect :: (evs ++ [.closeSession]))
    | (.ok (vms, macs, disks), evs) =>
      (.ok (assembleDevice env.shares ip vms macs disks),
       .checkPort :: .connect :: (evs ++ [.closeSession]))
  else (.error (.connError sPortClosed), [.checkPort])

/-- The configuration read from `SETTINGS`; a missing key is `none`. -/
structure Settings where
  xenUser : Option Str
  xenPassword : Option Str

/-- Python truthiness of `SETTINGS.get(...)`: `None` and the empty string
are falsy. -/
def falsyOpt : Option Str → Bool
  | none => true
  | some s => s.isEmpty

/-- The `snmp_name` keyword argument: absent, explicitly `None`, or a
string.  `kwargs.get('snmp_name', '') or ''` coerces the first two to the
empty string. -/
inductive HintArg where
  | absent
  | noneHint
  | strHint (s : Str)

def hintText : HintArg → Str
  | .absent => []
  | .noneHint => []
  | .strHint s => s

/-- The result record; modelled from the spec for the external
`get_base_result_template`: a base structure with a default status and the
shared message list (no `device` key until success). -/
structure ScanResult where
  status : Str
  messages : List Str
  device : Option DeviceInfo
deriving DecidableEq

/-- What `scan_address` does: abstain (`NoMatchError`), return a result
record, or let an uncaught Python exception escape. -/
inductive ScanOutcome where
  | noMatch (msg : Str)
  | res (r : ScanResult)
  | uncaught
deriving DecidableEq

/-- `scan_address`, paired with the I/O event trace of the call. -/
def scanAddress (env : XenEnv) (st : Settings) (ip : Str) (hint : HintArg) :
    ScanOutcome × List Ev :=
  if containsSub sNxos (lowerStr (hintText hint)) then (.noMatch sNexusMsg, [])
  else if !containsSub sXen (hintText hint) then (.noMatch sXenNotFound, [])
  else
    if falsyOpt st.xenUser || falsyOpt st.xenPassword then
      (.res ⟨sErrorSt, [sNotConfigured], none⟩, [])
    else
      match sshXenRun env ip with
      | (.ok info, evs) => (.res ⟨sSuccessSt, [], some info⟩, evs)
      | (.error (.connError m), evs) => (.res ⟨sErrorSt, [m], none⟩, evs)
      | (.error (.domainError m), evs) => (.res ⟨sErrorSt, [m], none⟩, evs)
      | (.error .pyError, evs) => (.uncaught, evs)

/-! ## Claim C4 -/

/-- The fuel-driven bit length is at most `B` on inputs below `2 ^ B`. -/
theorem bitlenAux_le (f : Nat) :
    ∀ n, n ≤ f → ∀ B, n < 2 ^ B → bitlenAux f n ≤ B := by
  induction f with
  | zero =>
    intro n hn B _
    have h0 : n = 0 := Nat.le_zero.mp hn
    subst h0
    simp [bitlenAux]
  | succ f ih =>
    intro n hn B hB
    by_cases h0 : n = 0
    · subst h0
      simp [bitlenAux]
    · simp only [bitlenAux]
      rw [if_neg h0]
      cases B with
      | zero =>
        exfalso
        have h1 : n < 1 := by simpa using hB
        omega
      | succ B =>
        have h1 : n / 2 ≤ f := by omega
        have h2 : n / 2 < 2 ^ B := by
          rw [pow_succ] at hB
          omega
        have h3 := ih (n / 2) h1 B h2
        omega

/-- The fuel-driven bit length exceeds `B` on inputs of at least `2 ^ B`. -/
theorem bitlenAux_ge (f : Nat) :
    ∀ n, n ≤ f → ∀ B, 2 ^ B ≤ n → B + 1 ≤ bitlenAux f n := by
  induction f with
  | zero =>
    intro n hn B hB
    exfalso
    have h0 : n = 0 := Nat.le_zero.mp hn
    subst h0
    have h1 : 0 < 2 ^ B := pow_pos (by norm_num) B
    omega
  | succ f ih =>
    intro n hn B hB
    have h0 : n ≠ 0 := by
      have h1 : 0 < 2 ^ B := pow_pos (by norm_num) B
      omega
    simp only [bitlenAux]
    rw [if_neg h0]
    cases B with
    | zero => omega
    | succ B =>
      have h1 : n / 2 ≤ f := by omega
      have h2 : 2 ^ B ≤ n / 2 := by
        rw [pow_succ] at hB
        omega
      have h3 := ih (n / 2) h1 B h2
      omega

theorem bitlen_le (n B : Nat) (h : n < 2 ^ B) : bitlen n ≤ B :=
  bitlenAux_le n n (Nat.le_refl n) B h

theorem bitlen_ge (n B : Nat) (h : 2 ^ B ≤ n) : B + 1 ≤ bitlen n :=
  bitlenAux_ge n n (Nat.le_refl n) B h

/-- Rounding to 53 bits is the identity on a multiple of `2^20` whose
quotient fits in 53 bits: at most its 20 low (zero) bits are dropped. -/
theorem round53_multiple (k : Nat) (hk : k < 2 ^ 53) :
    round53 (2 ^ 20 * k) = 2 ^ 20 * k := by
  by_cases hsmall : 2 ^ 20 * k < 2 ^ 53
  · simp only [round53]
    rw [if_pos hsmall]
  · have hge : 2 ^ 53 ≤ 2 ^ 20 * k := Nat.not_lt.mp hsmall
    have hub : 2 ^ 20 * k < 2 ^ 73 := by
      calc 2 ^ 20 * k < 2 ^ 20 * 2 ^ 53 := (mul_lt_mul_left (by norm_num)).mpr hk
        _ = 2 ^ 73 := by norm_num
    have hb1 : bitlen (2 ^ 20 * k) ≤ 73 := bitlen_le _ _ hub
    have hb2 : 54 ≤ bitlen (2 ^ 20 * k) := bitlen_ge _ 53 hge
    have hdvd : 2 ^ (bitlen (2 ^ 20 * k) - 53) ∣ 2 ^ 20 * k :=
      (pow_dvd_pow 2 (by omega)).mul_right k
    have hr0 : 2 ^ 20 * k % 2 ^ (bitlen (2 ^ 20 * k) - 53) = 0 :=
      Nat.dvd_iff_mod_eq_zero.mp hdvd
    simp only [round53]
    rw [if_neg hsmall, if_neg ?hc]
    · exact Nat.div_mul_cancel hdvd
    case hc =>
      have hp : 0 < 2 ^ (bitlen (2 ^ 20 * k) - 54) := pow_pos (by norm_num) _
      rintro (h | ⟨h, _⟩)
      · rw [hr0] at h
        omega
      · rw [hr0] at h
        omega

set_option maxRecDepth 100000 in
/-- Counterexample to claim C4: the program true-divides through binary64
floats, so a byte value with more than 53 significant bits is rounded
before truncation and the reported size differs from truncated integer
division: memory-actual `2^60 - 1` reports `2^40` MiB, not `2^40 - 1`; and
the 1048576-multiple `(2^53 + 1) * 2^20` is not converted exactly. -/
theorem c4_counterexample :
    pyFloatMiB (2 ^ 60 - 1) = some (2 ^ 40) ∧
      pyFloatMiB (2 ^ 60 - 1) ≠ some ((2 ^ 60 - 1 : Int).tdiv 1048576) ∧
      pyFloatMiB ((2 ^ 53 + 1) * 2 ^ 20) = some (2 ^ 53) ∧
      1048576 * (2 ^ 53 : Int) ≠ (2 ^ 53 + 1) * 2 ^ 20 :=
  ⟨by decide, by decide, by decide, by decide⟩

set_option maxRecDepth 100000 in
/-- Claim C4 (amended): for every non-negative byte value below `2^53` —
every value whose 53-bit float mantissa is exact, covering all realistic
memory and disk sizes — the float-mediated conversion the program performs
equals the byte value integer-divided by 1048576 with the remainder
truncated, which is what the pipeline’s `bytesToMiB` records; 2147483648
bytes yield 2048 MiB and 1073741824 bytes yield 1024 MiB; and the
conversion is exact on every multiple of 1048576 whose quotient is below
`2^53`.  (Beyond 53 significant bits the float rounding can perturb the
result.) -/
theorem c4_conversion_amended :
    (∀ v : Int, 0 ≤ v → v < 2 ^ 53 →
      pyFloatMiB v = some (bytesToMiB v) ∧
        bytesToMiB v = Int.ofNat (v.toNat / 1048576)) ∧
    (∀ k : Nat, k < 2 ^ 53 → pyFloatMiB (1048576 * (k : Int)) = some (k : Int)) ∧
    pyFloatMiB 2147483648 = some 2048 ∧ pyFloatMiB 1073741824 = some 1024 := by
  refine ⟨?_, ?_, by decide, by decide⟩
  · intro v hv hlt
    obtain ⟨n, rfl⟩ := Int.eq_ofNat_of_zero_le hv
    have hn : n < 2 ^ 53 := by exact_mod_cast hlt
    have hr : round53 (Int.natAbs ↑n) = n := by
      rw [Int.natAbs_ofNat]
      unfold round53
      rw [if_pos hn]
    refine ⟨?_, rfl⟩
    simp only [pyFloatMiB]
    rw [hr, if_neg (Nat.not_le.mpr (lt_of_lt_of_le hn (by norm_num))), if_neg (by omega)]
    rfl
  · intro k hk
    have hna : Int.natAbs (1048576 * (k : Int)) = 2 ^ 20 * k := by
      rw [Int.natAbs_mul, Int.natAbs_ofNat]
      norm_num
    have hr : round53 (Int.natAbs (1048576 * (k : Int))) = 2 ^ 20 * k := by
      rw [hna]
      exact round53_multiple k hk
    have hub : 2 ^ 20 * k < 2 ^ 1034 := by
      have h1 : 2 ^ 20 * k < 2 ^ 73 := by
        calc 2 ^ 20 * k < 2 ^ 20 * 2 ^ 53 := (mul_lt_mul_left (by norm_num)).mpr hk
          _ = 2 ^ 73 := by norm_num
      exact lt_of_lt_of_le h1 (by norm_num)
    simp only [pyFloatMiB]
    rw [hr, if_neg (Nat.not_le.mpr hub), if_neg (by omega)]
    rw [Nat.mul_div_cancel_left k (by norm_num)]
    rfl

set_option maxRecDepth 100000 in
/-- Witness for the amended C4 at concrete inputs. -/
theorem c4_conversion_amended_witness :
    pyFloatMiB 2147483648 = some (bytesToMiB 2147483648) ∧
      bytesToMiB 2147483648 = Int.ofNat (Int.toNat 2147483648 / 1048576) ∧
      pyFloatMiB (1048576 * ((3 : Nat) : Int)) = some ((3 : Nat) : Int) :=
  ⟨(c4_conversion_amended.1 2147483648 (by decide) (by decide)).1,
   (c4_conversion_amended.1 2147483648 (by decide) (by decide)).2,
   c4_conversion_amended.2.1 3 (by norm_num)⟩

/-! ## Claim C10 -/

/-- Claim C10: a call without the snmp_name keyword, and a call where it is
explicitly `None`, both coerce the hint to the empty string and abstain
with the `XEN not found.` no-match signal, with no I/O performed and no
type error raised. -/
theorem c10_absent_hint (env : XenEnv) (st : Settings) (ip : Str) :
    scanAddress env st ip .absent = (.noMatch sXenNotFound, []) ∧
      scanAddress env st ip .noneHint = (.noMatch sXenNotFound, []) :=
  ⟨rfl, rfl⟩

/-! ## Claim C5 -/

/-- Claim C5: when the hint lacks the substring `xen` (case-sensitive) or
contains `nx-os` (case-insensitive), `scan_address` abstains with a
no-match signal and performs no I/O, no configuration lookup and no session
creation (the event trace is empty), and does not return an error-status
result. -/
theorem c5_gate (env : XenEnv) (st : Settings) (ip : Str) (hint : HintArg)
    (h : containsSub sXen (hintText hint) = false ∨
      containsSub sNxos (lowerStr (hintText hint)) = true) :
    (∃ m, (scanAddress env st ip hint).1 = .noMatch m) ∧
      (scanAddress env st ip hint).2 = [] := by
  rcases h with h | h
  · cases hn : containsSub sNxos (lowerStr (hintText hint))
    · refine ⟨⟨sXenNotFound, ?_⟩, ?_⟩ <;> simp [scanAddress, h, hn]
    · refine ⟨⟨sNexusMsg, ?_⟩, ?_⟩ <;> simp [scanAddress, hn]
  · refine ⟨⟨sNexusMsg, ?_⟩, ?_⟩ <;> simp [scanAddress, h]

/-- Witness for C5: a Nexus hint (no `xen` substring) is declined with an
empty trace. -/
theorem c5_gate_witness :
    (∃ m, (scanAddress ⟨true, [], [], [], [], []⟩ ⟨none, none⟩ [] (.strHint sNxos)).1 =
      .noMatch m) ∧
      (scanAddress ⟨true, [], [], [], [], []⟩ ⟨none, none⟩ [] (.strHint sNxos)).2 = [] :=
  c5_gate ⟨true, [], [], [], [], []⟩ ⟨none, none⟩ [] (.strHint sNxos) (Or.inl (by decide))

/-! ## Claim C9 -/

/-- Claim C9: when the gate passes but `xen_user` or `xen_password` is
absent or empty, `scan_address` returns an error-status result whose
message names `XEN_USER` and `XEN_PASSWORD`, and the event trace is empty:
no port check, connection or remote command is attempted. -/
theorem c9_missing_credentials (env : XenEnv) (st : Settings) (ip : Str) (hint : HintArg)
    (hx : containsSub sXen (hintText hint) = true)
    (hn : containsSub sNxos (lowerStr (hintText hint)) = false)
    (hc : falsyOpt st.xenUser = true ∨ falsyOpt st.xenPassword = true) :
    scanAddress env st ip hint = (.res ⟨sErrorSt, [sNotConfigured], none⟩, []) ∧
      containsSub ("XEN_USER".data) sNotConfigured = true ∧
      containsSub ("XEN_PASSWORD".data) sNotConfigured = true := by
  have hcc : (falsyOpt st.xenUser || falsyOpt st.xenPassword) = true := by
    rcases hc with h | h <;> simp [h]
  exact ⟨by simp [scanAddress, hx, hn, hcc], by decide, by decide⟩

/-- Witness for C9: a configuration with a missing password. -/
theorem c9_missing_credentials_witness :
    scanAddress ⟨true, [], [], [], [], []⟩ ⟨some ("admin".data), none⟩ [] (.strHint sXen) =
      (.res ⟨sErrorSt, [sNotConfigured], none⟩, []) ∧
      containsSub ("XEN_USER".data) sNotConfigured = true ∧
      containsSub ("XEN_PASSWORD".data) sNotConfigured = true :=
  c9_missing_credentials ⟨true, [], [], [], [], []⟩ ⟨some ("admin".data), none⟩ []
    (.strHint sXen) (by decide) (by decide) (Or.inr (by decide))

/-! ## Claim C8 -/

/-- Claim C8: when the gate passes, credentials are configured and the TCP
probe of port 22 answers false, the scan raises the connectivity error
before any session is opened (the trace is just the port check, with no
connect event) and `scan_address` converts it into an error-status result
carrying the port-closed message. -/
theorem c8_port_closed (env : XenEnv) (st : Settings) (ip : Str) (hint : HintArg)
    (hx : containsSub sXen (hintText hint) = true)
    (hn : containsSub sNxos (lowerStr (hintText hint)) = false)
    (hu : falsyOpt st.xenUser = false) (hp : falsyOpt st.xenPassword = false)
    (ht : env.tcpOpen = false) :
    scanAddress env st ip hint = (.res ⟨sErrorSt, [sPortClosed], none⟩, [Ev.checkPort]) ∧
      Ev.connect ∉ (scanAddress env st ip hint).2 := by
  have hmain : scanAddress env st ip hint =
      (.res ⟨sErrorSt, [sPortClosed], none⟩, [Ev.checkPort]) := by
    simp [scanAddress, hx, hn, hu, hp, sshXenRun, ht]
  exact ⟨hmain, by rw [hmain]; decide⟩

/-- Witness for C8: a concrete unreachable host. -/
theorem c8_port_closed_witness :
    scanAddress ⟨false, [], [], [], [], []⟩ ⟨some ("u".data), some ("p".data)⟩ []
        (.strHint sXen) =
      (.res ⟨sErrorSt, [sPortClosed], none⟩, [Ev.checkPort]) ∧
      Ev.connect ∉ (scanAddress ⟨false, [], [], [], [], []⟩
        ⟨some ("u".data), some ("p".data)⟩ [] (.strHint sXen)).2 :=
  c8_port_closed ⟨false, [], [], [], [], []⟩ ⟨some ("u".data), some ("p".data)⟩ []
    (.strHint sXen) (by decide) (by decide) (by decide) (by decide) rfl

/-! ## Claim C7 -/

/-- The `try` body of `_ssh_xen` itself neither closes the session nor
opens one. -/
theorem pipeSteps_trace (env : XenEnv) (ip : Str) :
    Ev.closeSession ∉ (pipeSteps env ip).2 ∧ Ev.connect ∉ (pipeSteps env ip).2 := by
  unfold pipeSteps
  repeat' split
  all_goals exact ⟨by simp, by simp⟩

/-- `_ssh_xen` closes the session exactly once whenever it opened one. -/
theorem sshXen_close (env : XenEnv) (ip : Str) :
    ((sshXenRun env ip).2.count Ev.closeSession) =
      if Ev.connect ∈ (sshXenRun env ip).2 then 1 else 0 := by
  obtain ⟨hcl, hcn⟩ := pipeSteps_trace env ip
  cases ht : env.tcpOpen with
  | false => simp [sshXenRun, ht]
  | true =>
    rcases hp : pipeSteps env ip with ⟨r, evs⟩
    rw [hp] at hcl hcn
    simp only at hcl hcn
    cases r with
    | error e =>
      simp [sshXenRun, ht, hp, List.count_cons, List.count_append,
        List.count_eq_zero.mpr hcl]
    | ok b =>
      obtain ⟨vms, macs, disks⟩ := b
      simp [sshXenRun, ht, hp, List.count_cons, List.count_append,
        List.count_eq_zero.mpr hcl]

/-- Claim C7: on every execution of the scan pipeline, the session-close
event occurs in the trace exactly once when a session was opened (the
connect event occurred) and never otherwise — the session is closed on the
success path, on domain errors, and on uncaught parse errors alike, and is
never left open. -/
theorem c7_session_closed (env : XenEnv) (st : Settings) (ip : Str) (hint : HintArg) :
    ((scanAddress env st ip hint).2.count Ev.closeSession) =
      if Ev.connect ∈ (scanAddress env st ip hint).2 then 1 else 0 := by
  cases h1 : containsSub sNxos (lowerStr (hintText hint)) with
  | true => simp [scanAddress, h1]
  | false =>
    cases h2 : containsSub sXen (hintText hint) with
    | false => simp [scanAddress, h1, h2]
    | true =>
      cases h3 : (falsyOpt st.xenUser || falsyOpt st.xenPassword) with
      | true => simp [scanAddress, h1, h2, h3]
      | false =>
        have h := sshXen_close env ip
        rcases hs : sshXenRun env ip with ⟨r, evs⟩
        rw [hs] at h
        simp only at h
        cases r with
        | error e =>
          cases e with
          | connError m => simpa [scanAddress, h1, h2, h3, hs] using h
          | domainError m => simpa [scanAddress, h1, h2, h3, hs] using h
          | pyError => simpa [scanAddress, h1, h2, h3, hs] using h
        | ok info => simpa [scanAddress, h1, h2, h3, hs] using h

/-! ## Claim C1 -/

/-- When the shares lookup yields a truthy WWN the disk is routed to
`disk_shares`. -/
theorem classify_cons_share (shares : List (Str × (Str × Int))) (d : DiskRec)
    (rest : List DiskRec) (h : isShareDisk shares d = true) :
    classifyVmDisks shares (d :: rest) =
      (mkShareEntry shares d :: (classifyVmDisks shares rest).1,
       (classifyVmDisks shares rest).2) := by
  rcases hl : dlookup shares (vhdKey d.srUuid) with _ | ⟨w, ms⟩
  · simp [isShareDisk, hl] at h
  · simp only [isShareDisk, hl, Bool.not_eq_true'] at h
    simp [classifyVmDisks, mkShareEntry, hl, h]

/-- When the shares lookup is empty or yields a falsy WWN the disk is
routed to `disks`. -/
theorem classify_cons_plain (shares : List (Str × (Str × Int))) (d : DiskRec)
    (rest : List DiskRec) (h : isShareDisk shares d = false) :
    classifyVmDisks shares (d :: rest) =
      ((classifyVmDisks shares rest).1,
       mkStorageEntry d :: (classifyVmDisks shares rest).2) := by
  rcases hl : dlookup shares (vhdKey d.srUuid) with _ | ⟨w, ms⟩
  · simp [classifyVmDisks, hl]
  · simp only [isShareDisk, hl, Bool.not_eq_false'] at h
    simp [classifyVmDisks, hl, h]

/-- The classification loop partitions the disk list according to the
truthiness of the WWN obtained from the shares lookup. -/
theorem classify_spec (shares : List (Str × (Str × Int))) (ds : List DiskRec) :
    (classifyVmDisks shares ds).1.length + (classifyVmDisks shares ds).2.length = ds.length ∧
    (∀ d ∈ ds,
      (isShareDisk shares d = true → mkShareEntry shares d ∈ (classifyVmDisks shares ds).1) ∧
      (isShareDisk shares d = false → mkStorageEntry d ∈ (classifyVmDisks shares ds).2)) ∧
    (∀ x ∈ (classifyVmDisks shares ds).1,
      ∃ d ∈ ds, isShareDisk shares d = true ∧ x = mkShareEntry shares d) ∧
    (∀ y ∈ (classifyVmDisks shares ds).2,
      ∃ d ∈ ds, isShareDisk shares d = false ∧ y = mkStorageEntry d) := by
  induction ds with
  | nil => simp [classifyVmDisks]
  | cons d rest ih =>
    obtain ⟨ih1, ih2, ih3, ih4⟩ := ih
    cases hd : isShareDisk shares d with
    | true =>
      rw [classify_cons_share shares d rest hd]
      refine ⟨?_, ?_, ?_, ?_⟩
      · simp only [List.length_cons]
        omega
      · intro d' hd'
        rcases List.mem_cons.mp hd' with rfl | hmem
        · exact ⟨fun _ => List.mem_cons_self _ _,
            fun hfalse => (nomatch hd.symm.trans hfalse)⟩
        · exact ⟨fun h => List.mem_cons_of_mem _ ((ih2 d' hmem).1 h), (ih2 d' hmem).2⟩
      · intro x hx
        rcases List.mem_cons.mp hx with rfl | hmem
        · exact ⟨d, List.mem_cons_self _ _, hd, rfl⟩
        · obtain ⟨d', hd', hs, rfl⟩ := ih3 x hmem
          exact ⟨d', List.mem_cons_of_mem _ hd', hs, rfl⟩
      · intro y hy
        obtain ⟨d', hd', hs, rfl⟩ := ih4 y hy
        exact ⟨d', List.mem_cons_of_mem _ hd', hs, rfl⟩
    | false =>
      rw [classify_cons_plain shares d rest hd]
      refine ⟨?_, ?_, ?_, ?_⟩
      · simp only [List.length_cons]
        omega
      · intro d' hd'
        rcases List.mem_cons.mp hd' with rfl | hmem
        · exact ⟨fun htrue => (nomatch hd.symm.trans htrue),
            fun _ => List.mem_cons_self _ _⟩
        · exact ⟨(ih2 d' hmem).1,
            fun h => List.mem_cons_of_mem _ ((ih2 d' hmem).2 h)⟩
      · intro x hx
        obtain ⟨d', hd', hs, rfl⟩ := ih3 x hx
        exact ⟨d', List.mem_cons_of_mem _ hd', hs, rfl⟩
      · intro y hy
        rcases List.mem_cons.mp hy with rfl | hmem
        · exact ⟨d, List.mem_cons_self _ _, hd, rfl⟩
        · obtain ⟨d', hd', hs, rfl⟩ := ih4 y hmem
          exact ⟨d', List.mem_cons_of_mem _ hd', hs, rfl⟩

def c1Shares : List (Str × (Str × Int)) := [("VHD-sr1".data, (([] : Str), 5))]

def c1Disk : DiskRec := ⟨some ("u1".data), some ("sr1".data), 10, some ("xvda".data)⟩

def c1Disks : List (Option Str × List DiskRec) := [(some ("web01".data), [c1Disk])]

def c1Vm : VmT := ⟨"web01".data, "vm-1".data, 1, 512⟩

/-- Counterexample to claim C1: the storage-repository UUID `sr1` has an
entry in the shares lookup under key `VHD-sr1` (with an empty WWN, as
`shares.get` may return), yet the disk is appended to `disks` and not to
`disk_shares` — classification is not decided solely by presence of the
key. -/
theorem c1_counterexample :
    dlookup c1Shares (vhdKey c1Disk.srUuid) = some (([] : Str), 5) ∧
      (buildVmDevice c1Shares [] c1Disks c1Vm).diskShares = [] ∧
      (buildVmDevice c1Shares [] c1Disks c1Vm).disks =
        [⟨10, some ("xvda".data), sXenVirtualDisk⟩] :=
  ⟨by decide, by decide, by decide⟩

/-- Claim C1 (amended): a disk is routed to `disk_shares` exactly when the
shares lookup under `VHD-<sr-uuid>` yields a pair with a non-empty (truthy)
WWN, and to `disks` when the key is absent or its WWN is falsy; every disk
lands in exactly one of the two lists and each entry of either list comes
from a disk classified that way. -/
theorem c1_share_classification (shares : List (Str × (Str × Int)))
    (macs : List (Str × List Str)) (disks : List (Option Str × List DiskRec)) (t : VmT) :
    (buildVmDevice shares macs disks t).diskShares.length
        + (buildVmDevice shares macs disks t).disks.length
      = ((dlookup disks (some t.label)).getD []).length ∧
    (∀ d ∈ (dlookup disks (some t.label)).getD [],
      (isShareDisk shares d = true →
        mkShareEntry shares d ∈ (buildVmDevice shares macs disks t).diskShares) ∧
      (isShareDisk shares d = false →
        mkStorageEntry d ∈ (buildVmDevice shares macs disks t).disks)) ∧
    (∀ x ∈ (buildVmDevice shares macs disks t).diskShares,
      ∃ d ∈ (dlookup disks (some t.label)).getD [],
        isShareDisk shares d = true ∧ x = mkShareEntry shares d) ∧
    (∀ y ∈ (buildVmDevice shares macs disks t).disks,
      ∃ d ∈ (dlookup disks (some t.label)).getD [],
        isShareDisk shares d = false ∧ y = mkStorageEntry d) :=
  classify_spec shares ((dlookup disks (some t.label)).getD [])

def c1wShares : List (Str × (Str × Int)) := [("VHD-sr1".data, ("wwn1".data, 7))]

def c1wDiskA : DiskRec := ⟨some ("u1".data), some ("sr1".data), 10, some ("xvda".data)⟩

def c1wDiskB : DiskRec := ⟨some ("u2".data), some ("sr2".data), 20, some ("xvdb".data)⟩

def c1wDisks : List (Option Str × List DiskRec) :=
  [(some ("web01".data), [c1wDiskA, c1wDiskB])]

/-- Witness for the amended C1: a shared disk lands in `disk_shares` and a
local disk lands in `disks`. -/
theorem c1_share_classification_witness :
    mkShareEntry c1wShares c1wDiskA ∈ (buildVmDevice c1wShares [] c1wDisks c1Vm).diskShares ∧
      mkStorageEntry c1wDiskB ∈ (buildVmDevice c1wShares [] c1wDisks c1Vm).disks :=
  ⟨((c1_share_classification c1wShares [] c1wDisks c1Vm).2.1 c1wDiskA (by decide)).1 (by decide),
   ((c1_share_classification c1wShares [] c1wDisks c1Vm).2.1 c1wDiskB (by decide)).2 (by decide)⟩

/-! ## Claim C2 -/

/-- Membership in the accumulated VM list is exactly production by some
block of the input. -/
theorem runVmsAux_mem (bs : List Str) :
    ∀ ts, runVmsAux bs = some ts →
      ∀ t, (t ∈ ts ↔ ∃ b, b ∈ bs ∧ vmOfBlock b = some (some t)) := by
  induction bs with
  | nil =>
    intro ts h t
    simp only [runVmsAux, Option.some.injEq] at h
    subst h
    simp
  | cons b bs ih =>
    intro ts h t
    rcases hv : vmOfBlock b with _ | ov
    · rw [runVmsAux, hv] at h
      simp at h
    · cases ov with
      | none =>
        rw [runVmsAux, hv] at h
        rw [ih ts h t]
        constructor
        · rintro ⟨b', hb', hvb⟩
          exact ⟨b', List.mem_cons_of_mem _ hb', hvb⟩
        · rintro ⟨b', hb', hvb⟩
          rcases List.mem_cons.mp hb' with rfl | hmem
          · rw [hv] at hvb
            simp at hvb
          · exact ⟨b', hmem, hvb⟩
      | some t' =>
        rw [runVmsAux, hv] at h
        rcases hr : runVmsAux bs with _ | ts'
        · rw [hr] at h
          simp at h
        · rw [hr] at h
          simp only [Option.some.injEq] at h
          subst h
          constructor
          · intro hmem
            rcases List.mem_cons.mp hmem with rfl | hmem'
            · exact ⟨b, List.mem_cons_self _ _, hv⟩
            · obtain ⟨b', hb', hvb⟩ := (ih ts' hr t).mp hmem'
              exact ⟨b', List.mem_cons_of_mem _ hb', hvb⟩
          · rintro ⟨b', hb', hvb⟩
            rcases List.mem_cons.mp hb' with rfl | hmem
            · rw [hv] at hvb
              simp only [Option.some.injEq] at hvb
              exact hvb ▸ List.mem_cons_self _ _
            · exact List.mem_cons_of_mem _ ((ih ts' hr t).mpr ⟨b', hmem, hvb⟩)

/-- A block that produces a tuple carries that tuple's name-label, is not a
helper VM, and has power-state `running`. -/
theorem vmOfBlock_run (b : Str) (t : VmT) (h : vmOfBlock b = some (some t)) :
    dlookup (blockInfo b) kNameLabel = some t.label ∧
      startsHelper t.label = false ∧
      dlookup (blockInfo b) kPowerState = some sRunning := by
  simp only [vmOfBlock] at h
  repeat' split at h
  all_goals try simp at h
  subst h
  refine ⟨?_, ?_, ?_⟩ <;> simp_all

/-- Claim C2: for every VM-list block, if its name-label starts with a
helper-VM marker or its power-state is not `running` then the block
contributes no tuple to the result; conversely every tuple of the result
comes from a block that carries its name-label, is not a helper VM and has
power-state `running`. -/
theorem c2_running_filter (data : Str) (vms : List VmT)
    (h : getRunningVms data = some vms) (t : VmT) :
    t ∈ vms ↔ ∃ b, b ∈ splitSeq sTwoNewlines data ∧ vmOfBlock b = some (some t) ∧
      dlookup (blockInfo b) kNameLabel = some t.label ∧
      startsHelper t.label = false ∧
      dlookup (blockInfo b) kPowerState = some sRunning := by
  rw [runVmsAux_mem (splitSeq sTwoNewlines data) vms h t]
  constructor
  · rintro ⟨b, hb, hv⟩
    obtain ⟨h1, h2, h3⟩ := vmOfBlock_run b t hv
    exact ⟨b, hb, hv, h1, h2, h3⟩
  · rintro ⟨b, hb, hv, _, _, _⟩
    exact ⟨b, hb, hv⟩

def c2Data : Str :=
  ("name-label ( RW): web01\npower-state ( RO): running\nVCPUs-number ( RO): 2\nmemory-actual ( RO): 2147483648\nuuid ( RO) : vm-1\n\nname-label ( RW): halt01\npower-state ( RO): halted\nVCPUs-number ( RO): 1\nmemory-actual ( RO): 1048576\nuuid ( RO) : vm-2\n\nname-label ( RW): Transfer VM for x\npower-state ( RO): running\nVCPUs-number ( RO): 1\nmemory-actual ( RO): 1048576\nuuid ( RO) : vm-3").data

def c2Vm : VmT := ⟨"web01".data, "vm-1".data, 2, 2048⟩

set_option maxRecDepth 100000 in
/-- Witness for C2: of three blocks (running, halted, helper), only the
running non-helper VM is produced, by a block with the stated properties. -/
theorem c2_running_filter_witness :
    ∃ b, b ∈ splitSeq sTwoNewlines c2Data ∧ vmOfBlock b = some (some c2Vm) ∧
      dlookup (blockInfo b) kNameLabel = some c2Vm.label ∧
      startsHelper c2Vm.label = false ∧
      dlookup (blockInfo b) kPowerState = some sRunning :=
  (c2_running_filter c2Data [c2Vm] (by decide) c2Vm).mp (by decide)

/-! ## Claim C6 -/

/-- Adding a MAC under a non-helper label preserves the mapping invariant:
no key is a `Transfer VM for` label and every value set is non-empty. -/
theorem addToSetMap_inv (k v : Str) (hk : sTransfer.isPrefixOf k = false) :
    ∀ acc, (∀ p ∈ acc, sTransfer.isPrefixOf p.1 = false ∧ p.2 ≠ []) →
      ∀ p ∈ addToSetMap acc k v, sTransfer.isPrefixOf p.1 = false ∧ p.2 ≠ [] := by
  intro acc
  induction acc with
  | nil =>
    intro _ p hp
    simp only [addToSetMap, List.mem_singleton] at hp
    subst hp
    exact ⟨hk, by simp⟩
  | cons q rest ih =>
    intro hacc p hp
    obtain ⟨k', vs⟩ := q
    simp only [addToSetMap] at hp
    split at hp
    · rcases List.mem_cons.mp hp with rfl | hmem
      · constructor
        · rename_i hkk
          rw [hkk]
          exact hk
        · have hvs := (hacc (k', vs) (List.mem_cons_self _ _)).2
          split
          · exact hvs
          · simp
      · exact hacc p (List.mem_cons_of_mem _ hmem)
    · rcases List.mem_cons.mp hp with rfl | hmem
      · exact hacc (k', vs) (List.mem_cons_self _ _)
      · exact ih (fun p hp => hacc p (List.mem_cons_of_mem _ hp)) p hmem

/-- The MAC accumulation loop preserves the mapping invariant. -/
theorem macsGo_inv (lines : List Str) :
    ∀ (label : Str) (acc m : List (Str × List Str)),
      (∀ p ∈ acc, sTransfer.isPrefixOf p.1 = false ∧ p.2 ≠ []) →
      macsGo label acc lines = some m →
      ∀ p ∈ m, sTransfer.isPrefixOf p.1 = false ∧ p.2 ≠ [] := by
  induction lines with
  | nil =>
    intro label acc m hacc h
    simp only [macsGo, Option.some.injEq] at h
    subst h
    exact hacc
  | cons l0 ls ih =>
    intro label acc m hacc h
    simp only [macsGo] at h
    repeat' split at h
    case cons.isTrue => exact ih _ _ _ hacc h
    case cons.isFalse.h_1 => exact Option.noConfusion h
    case cons.isFalse.h_2.isTrue => exact ih _ _ _ hacc h
    case cons.isFalse.h_2.isFalse.isTrue.h_1 => exact Option.noConfusion h
    case cons.isFalse.h_2.isFalse.isTrue.h_2 =>
      rename_i hne xl labv heqlab hnt hmac xsp pv heqsp
      have hk : sTransfer.isPrefixOf labv = false := by
        cases hx : sTransfer.isPrefixOf labv
        · rfl
        · exact absurd hx hnt
      exact ih _ _ _ (addToSetMap_inv labv (trimL pv.2) hk acc hacc) h
    case cons.isFalse.h_2.isFalse.isFalse => exact ih _ _ _ hacc h

def c6Lines : List Str :=
  [("vm-name-label ( RO): Control domain on host: h1").data,
   ("MAC ( RO): aa:bb:cc:dd:ee:01").data]

/-- Counterexample to claim C6: a VIF block labelled
`Control domain on host: h1` is NOT skipped by `_get_macs` — its MAC is
accumulated under that label, although the claim says helper-VM labels
beginning `Control domain on host:` are skipped. -/
theorem c6_counterexample :
    getMacs c6Lines =
      some [(("Control domain on host: h1").data, [("aa:bb:cc:dd:ee:01").data])] ∧
      sControl.isPrefixOf (("Control domain on host: h1").data) = true :=
  ⟨by decide, by decide⟩

/-- Claim C6 (amended): in MAC extraction only labels beginning
`Transfer VM for` are skipped (a `Control domain on host:` label is not
skipped there); the returned mapping carries no `Transfer VM for` key and
every entry holds at least one MAC accumulated under the carried-forward
label. -/
theorem c6_macs_no_transfer (lines : List Str) (m : List (Str × List Str))
    (h : getMacs lines = some m) :
    ∀ p ∈ m, sTransfer.isPrefixOf p.1 = false ∧ p.2 ≠ [] :=
  macsGo_inv lines [] [] m (by simp) h

def c6wLines : List Str :=
  [("vm-name-label ( RO): Transfer VM for z").data,
   ("MAC ( RO): aa:bb:cc:dd:ee:03").data,
   ("vm-name-label ( RO): web01").data,
   ("MAC ( RO): aa:bb:cc:dd:ee:02").data]

/-- Witness for the amended C6: the Transfer VM's MAC is dropped, web01's
MAC is kept, and the surviving entry satisfies the invariant. -/
theorem c6_macs_no_transfer_witness :
    sTransfer.isPrefixOf (("web01").data) = false ∧
      ([("aa:bb:cc:dd:ee:02").data] : List Str) ≠ [] :=
  c6_macs_no_transfer c6wLines [(("web01").data, [("aa:bb:cc:dd:ee:02").data])]
    (by decide) (("web01").data, [("aa:bb:cc:dd:ee:02").data]) (by decide)

/-! ## Claim C3 -/

/-- A line that is neither a uuid line nor a matching address line leaves
the scan state unchanged. -/
theorem hostUuidGo_cons_nonmatch (ip u l : Str) (ls : List Str)
    (hm : matchesAddr ip l = false) (hu : isUuidLine l = false) :
    hostUuidGo ip u (l :: ls) = hostUuidGo ip u ls := by
  rcases hkv : lineKV l with _ | ⟨n, v⟩
  · simp [hostUuidGo, hkv]
  · have hn : (n == kUuid) = false := by
      simp only [isUuidLine, hkv] at hu
      exact hu
    have hm2 : (n == kAddress && v == ip) = false := by
      simp only [matchesAddr, hkv] at hm
      exact hm
    simp [hostUuidGo, hkv, hn, hm2]

/-- A uuid line replaces the tracked uuid. -/
theorem hostUuidGo_cons_uuid (ip u l : Str) (ls : List Str) (v : Str)
    (hkv : lineKV l = some (kUuid, v)) :
    hostUuidGo ip u (l :: ls) = hostUuidGo ip v ls := by
  simp [hostUuidGo, hkv]

/-- A matching address line returns the tracked uuid at once. -/
theorem hostUuidGo_cons_match (ip u l : Str) (ls : List Str)
    (hm : matchesAddr ip l = true) :
    hostUuidGo ip u (l :: ls) = some u := by
  rcases hkv : lineKV l with _ | ⟨n, v⟩
  · simp [matchesAddr, hkv] at hm
  · simp only [matchesAddr, hkv, Bool.and_eq_true, beq_iff_eq] at hm
    obtain ⟨rfl, rfl⟩ := hm
    have hnu : (kAddress == kUuid) = false := by decide
    simp [hostUuidGo, hkv, hnu]

/-- Walking a run of non-matching uuid-free lines preserves the tracked
uuid up to the first matching address line, which returns it. -/
theorem hostUuid_mid (ip u : Str) :
    ∀ (mid : List Str), (∀ l ∈ mid, matchesAddr ip l = false ∧ isUuidLine l = false) →
      ∀ (aLine : Str), lineKV aLine = some (kAddress, ip) →
      ∀ (rest : List Str), hostUuidGo ip u (mid ++ aLine :: rest) = some u := by
  intro mid
  induction mid with
  | nil =>
    intro _ aLine ha rest
    rw [List.nil_append]
    refine hostUuidGo_cons_match ip u aLine rest ?_
    simp [matchesAddr, ha]
  | cons l mid ih =>
    intro hmid aLine ha rest
    have h1 := hmid l (List.mem_cons_self _ _)
    rw [List.cons_append, hostUuidGo_cons_nonmatch ip u l _ h1.1 h1.2]
    exact ih (fun l' hl' => hmid l' (List.mem_cons_of_mem _ hl')) aLine ha rest

/-- A run of non-matching lines cannot produce a result of its own: the
outcome is whatever the tail yields, for any tracked uuid. -/
theorem hostUuid_pre (ip : Str) (r : Option Str) :
    ∀ (pre : List Str), (∀ l ∈ pre, matchesAddr ip l = false) →
      ∀ (tail : List Str), (∀ u0, hostUuidGo ip u0 tail = r) →
      ∀ u0, hostUuidGo ip u0 (pre ++ tail) = r := by
  intro pre
  induction pre with
  | nil =>
    intro _ tail htail u0
    rw [List.nil_append]
    exact htail u0
  | cons l pre ih =>
    intro hpre tail htail u0
    have hm := hpre l (List.mem_cons_self _ _)
    have htl := ih (fun l' hl' => hpre l' (List.mem_cons_of_mem _ hl')) tail htail
    rw [List.cons_append]
    rcases hkv : lineKV l with _ | ⟨n, v⟩
    · have hstep : hostUuidGo ip u0 (l :: (pre ++ tail)) = hostUuidGo ip u0 (pre ++ tail) := by
        simp [hostUuidGo, hkv]
      rw [hstep]
      exact htl u0
    · by_cases hn : (n == kUuid) = true
      · have hne : n = kUuid := by simpa using hn
        subst hne
        rw [hostUuidGo_cons_uuid ip u0 l _ v hkv]
        exact htl v
      · have hn' : (n == kUuid) = false := by
          cases h2 : (n == kUuid)
          · rfl
          · exact absurd h2 hn
        have hul : isUuidLine l = false := by
          simp only [isUuidLine, hkv]
          exact hn'
        rw [hostUuidGo_cons_nonmatch ip u0 l _ hm hul]
        exact htl u0

/-- With no matching address line the scan returns `none`. -/
theorem hostUuid_none (ip : Str) :
    ∀ (lines : List Str), (∀ l ∈ lines, matchesAddr ip l = false) →
      ∀ u0, hostUuidGo ip u0 lines = none := by
  intro lines hall u0
  have h := hostUuid_pre ip none lines hall [] (fun _ => rfl) u0
  rwa [List.append_nil] at h

def c3CexLines : List Str :=
  [("address : 10.0.0.5").data, ("uuid : u1").data]

/-- Counterexample to claim C3: a host block that lists its `address` field
before its `uuid` field matches the queried address, yet resolution returns
the (empty) previously-tracked uuid, not that block's uuid `u1` — so the
claim's unconditional "returns exactly that block's uuid" is false. -/
theorem c3_counterexample :
    getCurrentHostUuid c3CexLines (("10.0.0.5").data) = some ([] : Str) ∧
      getCurrentHostUuid c3CexLines (("10.0.0.5").data) ≠ some (("u1").data) :=
  ⟨by decide, by decide⟩

/-- Claim C3 (amended): resolution returns the most recently seen uuid
value at the first matching address line — hence exactly the block's uuid
whenever the block lists its uuid line before its address line (as the
host-list command prints them) and no earlier line matches; with no
matching line it signals not-found, in which case the scan fails with the
domain error `Could not find this host UUID.` surfaced as an error-status
result. -/
theorem c3_host_uuid_resolution :
    (∀ (ip : Str) (pre : List Str), (∀ l ∈ pre, matchesAddr ip l = false) →
      ∀ (uLine u : Str), lineKV uLine = some (kUuid, u) →
      ∀ (mid : List Str), (∀ l ∈ mid, matchesAddr ip l = false ∧ isUuidLine l = false) →
      ∀ (aLine : Str), lineKV aLine = some (kAddress, ip) →
      ∀ (rest : List Str),
        getCurrentHostUuid (pre ++ uLine :: (mid ++ aLine :: rest)) ip = some u) ∧
    (∀ (ip : Str) (lines : List Str), (∀ l ∈ lines, matchesAddr ip l = false) →
      getCurrentHostUuid lines ip = none) ∧
    (∀ (env : XenEnv) (st : Settings) (ip : Str) (hint : HintArg),
      containsSub sXen (hintText hint) = true →
      containsSub sNxos (lowerStr (hintText hint)) = false →
      falsyOpt st.xenUser = false → falsyOpt st.xenPassword = false →
      env.tcpOpen = true →
      getCurrentHostUuid env.hostLines ip = none →
      scanAddress env st ip hint =
        (.res ⟨sErrorSt, [sHostUuidErr], none⟩,
          [Ev.checkPort, Ev.connect, Ev.cmdHostList, Ev.closeSession])) := by
  refine ⟨?_, ?_, ?_⟩
  · intro ip pre hpre uLine u hu mid hmid aLine ha rest
    refine hostUuid_pre ip (some u) pre hpre (uLine :: (mid ++ aLine :: rest)) ?_ []
    intro u0
    rw [hostUuidGo_cons_uuid ip u0 uLine _ u hu]
    exact hostUuid_mid ip u mid hmid aLine ha rest
  · intro ip lines hall
    exact hostUuid_none ip lines hall []
  · intro env st ip hint hx hn hu hp ht hnone
    simp [scanAddress, hx, hn, hu, hp, sshXenRun, ht, pipeSteps, hnone]

/-- Witness for the amended C3: a well-ordered block resolves to its uuid;
an output with no matching address resolves to `none`; an environment with
no matching host surfaces the domain error with an error-status result. -/
theorem c3_host_uuid_resolution_witness :
    getCurrentHostUuid [("uuid : u1").data, ("address : 10.0.0.5").data]
        (("10.0.0.5").data) = some (("u1").data) ∧
      getCurrentHostUuid [("name-label : x").data] (("10.0.0.5").data) = none ∧
      scanAddress ⟨true, [], [], [], [], []⟩ ⟨some (("admin").data), some (("pw").data)⟩
          (("10.0.0.5").data) (.strHint sXen) =
        (.res ⟨sErrorSt, [sHostUuidErr], none⟩,
          [Ev.checkPort, Ev.connect, Ev.cmdHostList, Ev.closeSession]) :=
  ⟨c3_host_uuid_resolution.1 (("10.0.0.5").data) [] (by simp)
      (("uuid : u1").data) (("u1").data) (by decide) [] (by simp)
      (("address : 10.0.0.5").data) (by decide) [],
   c3_host_uuid_resolution.2.1 (("10.0.0.5").data) [("name-label : x").data] (by decide),
   c3_host_uuid_resolution.2.2 ⟨true, [], [], [], [], []⟩
      ⟨some (("admin").data), some (("pw").data)⟩ (("10.0.0.5").data) (.strHint sXen)
      (by decide) (by decide) (by decide) (by decide) rfl rfl⟩
